import Mathlib

/-!
Verification of the tug-o-chat game-state engine (backend/game_manager.py,
backend/matchmaking.py, backend/models.py, backend/config.py) against its
natural-language specification.

Shallow embedding conventions:
* Python floats are modelled by real numbers (`ℝ`); `math.log10 x` is
  `Real.logb 10 x`.
* `datetime.now()` becomes an explicit rational timestamp parameter `now : ℚ`
  threaded through each operation; `timedelta(seconds = n)` is the rational
  `n`, and `(a - b).total_seconds()` is `a - b`.
* Python dicts (`GameManager.rooms`, `GameManager.session_to_room`) are
  modelled as functions into `Option`; key deletion maps the key to `none`
  (pointwise identical to the guarded `del` in the source).
* `Player.session_id` is `Optional[str]` in the source but every player that
  reaches the queue or a room has one (matchmaking rejects players whose
  session is falsy); it is modelled as a `String`, with `""` playing the role
  of the falsy/missing value in `add_player`.
* The per-side stats dicts are initialised by `start_game` to
  `{total_pulls: 0, unique_pullers: 0, engagement_rate: 0.0, pull_power: 0.0}`
  and only ever hold these four keys, so they are modelled as a record; the
  pydantic default `{}` together with the `.get(key, 0)` read pattern is
  modelled by the all-zero record.
-/

namespace TugOChat

/-- models.GameStatus. -/
inductive GameStatus where
  | waiting
  | active
  | finished
  | abandoned
deriving DecidableEq, Repr

/-- models.Player (the `access_token` credential is irrelevant to the verified
logic and omitted). -/
structure Player where
  id : String
  username : String
  channel_name : String
  viewer_count : ℕ
  session_id : String
deriving DecidableEq, Repr

/-- models.PullData. -/
structure PullData where
  timestamp : ℚ
  username : String
  player_id : String
deriving DecidableEq, Repr

/-- One side's stats dict, as initialised by GameManager.start_game. -/
structure PlayerStats where
  total_pulls : ℕ
  unique_pullers : ℕ
  engagement_rate : ℝ
  pull_power : ℝ

/-- models.GameRoom. -/
structure GameRoom where
  id : String
  player1 : Player
  player2 : Player
  status : GameStatus
  rope_position : ℝ
  start_time : Option ℚ
  end_time : Option ℚ
  winner_id : Option String
  pull_history : List PullData
  player1_stats : PlayerStats
  player2_stats : PlayerStats

/-- config.Settings.game_duration (default 120 seconds). -/
def game_duration : ℚ := 120

/-- config.Settings.base_pull_strength (default 1.0). -/
noncomputable def base_pull_strength : ℝ := 1

/-- config.Settings.win_threshold (default 100.0). -/
noncomputable def win_threshold : ℝ := 100

/-- The all-zero stats record written by GameManager.start_game line 51-57. -/
noncomputable def emptyStats : PlayerStats :=
  { total_pulls := 0, unique_pullers := 0, engagement_rate := 0, pull_power := 0 }

/-- GameManager.start_game (lines 40-59), restricted to the room it acts on.
The not-found / wrong-status guard returns the room unchanged. -/
noncomputable def start_game (now : ℚ) (room : GameRoom) : GameRoom :=
  if room.status ≠ GameStatus.waiting then room
  else
    { room with
        status := GameStatus.active
        start_time := some now
        rope_position := 0
        player1_stats := emptyStats
        player2_stats := emptyStats }

/-- GameManager.register_pull (lines 61-79). -/
noncomputable def register_pull (now : ℚ) (player_id username : String)
    (room : GameRoom) : GameRoom :=
  if room.status ≠ GameStatus.active then room
  else
    let room' := { room with
      pull_history := room.pull_history ++
        [({ timestamp := now, username := username,
            player_id := player_id } : PullData)] }
    if player_id = room'.player1.id then
      { room' with player1_stats :=
          { room'.player1_stats with
              total_pulls := room'.player1_stats.total_pulls + 1 } }
    else
      { room' with player2_stats :=
          { room'.player2_stats with
              total_pulls := room'.player2_stats.total_pulls + 1 } }

/-- The pulls of the last 30-second window
(`[p for p in room.pull_history if now - p.timestamp < window]`, line 87). -/
def recentPulls (now : ℚ) (hist : List PullData) : List PullData :=
  hist.filter fun p => now - p.timestamp < 30

/-- `len(set(p.username for p in side_pulls))` for one side's recent pulls
(lines 90-91 / 95-96). -/
def uniquePullers (pid : String) (now : ℚ) (hist : List PullData) : ℕ :=
  ((((recentPulls now hist).filter fun p => p.player_id = pid).map
      PullData.username)).dedup.length

/-- `unique / max(viewer_count, 1)` (lines 92 / 97). -/
noncomputable def engagementRate (unique viewers : ℕ) : ℝ :=
  (unique : ℝ) / (max viewers 1 : ℕ)

/-- One side's pull power,
`engagement * base * math.log10(unique + 1)` (lines 107-108), with the
configured base strength as a parameter. -/
noncomputable def sidePullPower (viewers unique : ℕ) (base : ℝ) : ℝ :=
  engagementRate unique viewers * base * Real.logb 10 ((unique : ℝ) + 1)

/-- GameManager.calculate_engagement_stats (lines 81-108). -/
noncomputable def calculate_engagement_stats (now : ℚ) (room : GameRoom) :
    GameRoom :=
  let p1u := uniquePullers room.player1.id now room.pull_history
  let p2u := uniquePullers room.player2.id now room.pull_history
  { room with
      player1_stats := { room.player1_stats with
        unique_pullers := p1u
        engagement_rate := engagementRate p1u room.player1.viewer_count
        pull_power := sidePullPower room.player1.viewer_count p1u
          base_pull_strength }
      player2_stats := { room.player2_stats with
        unique_pullers := p2u
        engagement_rate := engagementRate p2u room.player2.viewer_count
        pull_power := sidePullPower room.player2.viewer_count p2u
          base_pull_strength } }

/-- GameManager.update_rope_position (lines 110-134).  The win-condition check
at line 133-134 only spawns a deferred `end_game` task; the status and winner
mutation it causes is the separate `end_game` step of a trace. -/
noncomputable def update_rope_position (now : ℚ) (room : GameRoom) : GameRoom :=
  if room.status ≠ GameStatus.active then room
  else
    let room' := calculate_engagement_stats now room
    let net_force := room'.player1_stats.pull_power -
      room'.player2_stats.pull_power
    let pos := room'.rope_position + net_force * (1 / 2)
    { room' with rope_position := max (-win_threshold) (min win_threshold pos) }

/-- GameManager.end_game (lines 136-151), restricted to the room it acts on:
status is set to FINISHED unconditionally and the winner is set only by the
threshold comparisons.  The delayed `cleanup_room` call of lines 153-155 is
the separate registry-level `cleanup_room` operation. -/
noncomputable def end_game (now : ℚ) (room : GameRoom) : GameRoom :=
  let room' := { room with
    status := GameStatus.finished
    end_time := some now }
  if room'.rope_position ≤ -win_threshold then
    { room' with winner_id := some room'.player2.id }
  else if win_threshold ≤ room'.rope_position then
    { room' with winner_id := some room'.player1.id }
  else room'

/-- Lines 177-183 of GameManager.handle_player_disconnect: the forfeit marking
performed before `end_game` is awaited. -/
noncomputable def markForfeit (session_id : String) (room : GameRoom) :
    GameRoom :=
  if room.status = GameStatus.active then
    let room' := { room with status := GameStatus.abandoned }
    if room'.player1.session_id = session_id then
      { room' with winner_id := some room'.player2.id }
    else
      { room' with winner_id := some room'.player1.id }
  else room

/-- GameManager.handle_player_disconnect (lines 171-185). -/
noncomputable def handle_player_disconnect (now : ℚ) (session_id : String)
    (room : GameRoom) : GameRoom :=
  end_game now (markForfeit session_id room)

/-- One iteration of GameManager.game_loop (lines 217-226) for a single room:
the rope update followed by the time-limit check that awaits `end_game`. -/
noncomputable def game_loop_step (now : ℚ) (room : GameRoom) : GameRoom :=
  if room.status ≠ GameStatus.active then room
  else
    let room' := update_rope_position now room
    match room'.start_time with
    | some t => if game_duration ≤ now - t then end_game now room' else room'
    | none => room'

/-- The per-room operations a trace may interleave. -/
inductive GameOp where
  | start (now : ℚ)
  | pull (now : ℚ) (player_id username : String)
  | tick (now : ℚ)
  | finish (now : ℚ)
  | disconnect (now : ℚ) (session_id : String)

/-- Apply one operation to a room. -/
noncomputable def applyOp (op : GameOp) (room : GameRoom) : GameRoom :=
  match op with
  | .start now => start_game now room
  | .pull now pid u => register_pull now pid u room
  | .tick now => update_rope_position now room
  | .finish now => end_game now room
  | .disconnect now sid => handle_player_disconnect now sid room

/-- Apply a sequence of operations to a room. -/
noncomputable def runOps (ops : List GameOp) (room : GameRoom) : GameRoom :=
  ops.foldl (fun r op => applyOp op r) room

/-- GameManager's two registry indexes (lines 14-16): the id-keyed room dict
and the session-keyed room-id dict. -/
structure GameManager where
  rooms : String → Option GameRoom
  session_to_room : String → Option String

/-- The freshly constructed GameManager (lines 14-16). -/
def emptyManager : GameManager :=
  { rooms := fun _ => none, session_to_room := fun _ => none }

/-- The room value built by GameManager.create_room (lines 20-25) with the
pydantic defaults of models.GameRoom; `rid` stands for the generated uuid. -/
noncomputable def mkRoom (rid : String) (p1 p2 : Player) : GameRoom :=
  { id := rid
    player1 := p1
    player2 := p2
    status := GameStatus.waiting
    rope_position := 0
    start_time := none
    end_time := none
    winner_id := none
    pull_history := []
    player1_stats := emptyStats
    player2_stats := emptyStats }

/-- GameManager.create_room (lines 18-29).  Both session keys are written with
the same value, so the write order of lines 27-28 is immaterial. -/
noncomputable def create_room (rid : String) (p1 p2 : Player)
    (gm : GameManager) : GameManager :=
  { rooms := fun k => if k = rid then some (mkRoom rid p1 p2) else gm.rooms k
    session_to_room := fun s =>
      if s = p1.session_id ∨ s = p2.session_id then some rid
      else gm.session_to_room s }

/-- GameManager.cleanup_room (lines 157-169): if the room is still indexed,
both of its players' session keys are deleted (each `del` guarded by a
membership test, which is pointwise identical to unconditional functional
deletion), then the room id itself is deleted. -/
noncomputable def cleanup_room (rid : String) (gm : GameManager) :
    GameManager :=
  let sessions :=
    match gm.rooms rid with
    | some room => fun s =>
        if s = room.player1.session_id ∨ s = room.player2.session_id then none
        else gm.session_to_room s
    | none => gm.session_to_room
  { rooms := fun k => if k = rid then none else gm.rooms k
    session_to_room := sessions }

/-- Every session entry points at a room that is still indexed and of which
the session is one of the two players' session handles.  This holds for every
registry state the manager can reach: `create_room` installs exactly the two
player-session keys of the new room, and `cleanup_room` removes a room
together with exactly those keys (see the preservation lemmas below). -/
def SessionInv (gm : GameManager) : Prop :=
  ∀ s rid, gm.session_to_room s = some rid →
    ∃ room, gm.rooms rid = some room ∧
      (s = room.player1.session_id ∨ s = room.player2.session_id)

/-- models.QueuePlayer. -/
structure QueuePlayer where
  player : Player
  joined_at : ℚ
  session_id : String
deriving DecidableEq, Repr

/-- MatchmakingQueue.add_player (matchmaking.py lines 18-37): no-op when the
session is already queued or when the player has no (falsy) session handle,
otherwise append at the back. -/
def add_player (now : ℚ) (player : Player) (queue : List QueuePlayer) :
    List QueuePlayer :=
  if queue.any fun q => q.session_id = player.session_id then queue
  else if player.session_id = "" then queue
  else queue ++ [{ player := player, joined_at := now,
                   session_id := player.session_id }]

/-- MatchmakingQueue.find_match (matchmaking.py lines 44-55): fewer than two
entries yields none, otherwise the first two entries are popped in order; the
returned pair is accompanied by the remaining queue. -/
def find_match (queue : List QueuePlayer) :
    Option ((Player × Player) × List QueuePlayer) :=
  if queue.length < 2 then none
  else
    match queue with
    | q1 :: q2 :: rest => some ((q1.player, q2.player), rest)
    | _ => none

/-- A concrete streamer for test scenarios. -/
def alice : Player :=
  { id := "p1", username := "Alice", channel_name := "alicetv",
    viewer_count := 10, session_id := "s1" }

/-- A concrete opponent for test scenarios. -/
def bob : Player :=
  { id := "p2", username := "Bob", channel_name := "bobtv",
    viewer_count := 10, session_id := "s2" }

/-- A concrete ACTIVE room at the rope's center. -/
noncomputable def roomA : GameRoom :=
  { id := "X"
    player1 := alice
    player2 := bob
    status := GameStatus.active
    rope_position := 0
    start_time := some 0
    end_time := none
    winner_id := none
    pull_history := []
    player1_stats := emptyStats
    player2_stats := emptyStats }

/-- A concrete ACTIVE room with the rope at +50, strictly inside the win
threshold. -/
noncomputable def roomT : GameRoom := { roomA with rope_position := 50 }

/-- A concrete WAITING room. -/
noncomputable def roomW : GameRoom := { roomA with status := GameStatus.waiting }

/-- A concrete ACTIVE room whose history holds pulls by three distinct
usernames for player1, all at timestamp 0. -/
noncomputable def room5 : GameRoom :=
  { roomA with pull_history :=
      [{ timestamp := 0, username := "u1", player_id := "p1" },
       { timestamp := 0, username := "u2", player_id := "p1" },
       { timestamp := 0, username := "u3", player_id := "p1" }] }

/-- Zero unique pullers yield engagement rate zero. -/
lemma engagementRate_zero (v : ℕ) : engagementRate 0 v = 0 := by
  simp [engagementRate]

/-- Zero unique pullers yield pull power zero, for any viewer count and any
base strength. -/
lemma sidePullPower_zero (v : ℕ) (b : ℝ) : sidePullPower v 0 b = 0 := by
  simp [sidePullPower, engagementRate_zero]

/-- calculate_engagement_stats only rewrites the two stats records. -/
lemma calc_stats_fields (now : ℚ) (room : GameRoom) :
    (calculate_engagement_stats now room).status = room.status ∧
    (calculate_engagement_stats now room).rope_position = room.rope_position ∧
    (calculate_engagement_stats now room).player1 = room.player1 ∧
    (calculate_engagement_stats now room).player2 = room.player2 ∧
    (calculate_engagement_stats now room).start_time = room.start_time ∧
    (calculate_engagement_stats now room).winner_id = room.winner_id := by
  simp [calculate_engagement_stats]

/-- update_rope_position only rewrites the stats records and the rope. -/
lemma update_fields (now : ℚ) (room : GameRoom) :
    (update_rope_position now room).status = room.status ∧
    (update_rope_position now room).player1 = room.player1 ∧
    (update_rope_position now room).player2 = room.player2 ∧
    (update_rope_position now room).start_time = room.start_time ∧
    (update_rope_position now room).winner_id = room.winner_id := by
  unfold update_rope_position
  split_ifs
  · exact ⟨rfl, rfl, rfl, rfl, rfl⟩
  · simp [calculate_engagement_stats]

/-- end_game never changes the rope position. -/
lemma end_game_rope (now : ℚ) (room : GameRoom) :
    (end_game now room).rope_position = room.rope_position := by
  simp only [end_game, apply_ite GameRoom.rope_position]
  simp

/-- end_game always sets status FINISHED. -/
lemma end_game_status (now : ℚ) (room : GameRoom) :
    (end_game now room).status = GameStatus.finished := by
  simp only [end_game, apply_ite GameRoom.status]
  simp

/-- markForfeit never changes the rope position. -/
lemma markForfeit_rope (sid : String) (room : GameRoom) :
    (markForfeit sid room).rope_position = room.rope_position := by
  simp only [markForfeit, apply_ite GameRoom.rope_position]
  simp

/-- Claim C1: the claim says FINISHED and ABANDONED are absorbing, but the
code's own forfeit path contradicts it: on an ACTIVE room,
handle_player_disconnect first marks the room ABANDONED (lines 177-183) and
the end_game step it then awaits (line 185, body lines 136-155) overwrites
the status with FINISHED, so the ABANDONED status does not absorb — the room
transitions ABANDONED → FINISHED. -/
theorem abandoned_overwritten_by_end_game :
    (markForfeit "s1" roomA).status = GameStatus.abandoned ∧
    (end_game 5 (markForfeit "s1" roomA)).status = GameStatus.finished := by
  constructor
  · simp [markForfeit, roomA, alice, bob]
  · exact end_game_status 5 _

/-- Claim C2: the claim says a disconnect during ACTIVE leaves the winner set
to the other player and the status ABANDONED.  The code does set the winner
to the other player (here player2), but the ABANDONED mark is immediately
overwritten: after handle_player_disconnect completes the status is FINISHED,
not ABANDONED. -/
theorem disconnect_active_ends_finished_not_abandoned :
    (handle_player_disconnect 5 "s1" roomA).winner_id = some "p2" ∧
    (handle_player_disconnect 5 "s1" roomA).status = GameStatus.finished := by
  refine ⟨?_, end_game_status 5 _⟩
  unfold handle_player_disconnect end_game
  have hm : markForfeit "s1" roomA =
      { roomA with status := GameStatus.abandoned,
                   winner_id := some "p2" } := by
    simp [markForfeit, roomA, alice, bob]
  rw [hm]
  rw [if_neg (by norm_num [roomA, win_threshold]),
      if_neg (by norm_num [roomA, win_threshold])]

/-- end_game resolves the winner only by the two threshold comparisons of
lines 146-149; strictly inside the threshold it leaves the winner as it was. -/
lemma end_game_winner (now : ℚ) (room : GameRoom) :
    (end_game now room).winner_id =
      if room.rope_position ≤ -win_threshold then some room.player2.id
      else if win_threshold ≤ room.rope_position then some room.player1.id
      else room.winner_id := by
  simp only [end_game, apply_ite GameRoom.winner_id]

/-- A rope update over an empty pull history just clamps the rope. -/
lemma update_rope_empty_history (now : ℚ) (room : GameRoom)
    (hA : room.status = GameStatus.active) (hh : room.pull_history = []) :
    (update_rope_position now room).rope_position =
      max (-win_threshold) (min win_threshold room.rope_position) := by
  unfold update_rope_position
  rw [if_neg (by simp [hA])]
  have h0 : ∀ pid, uniquePullers pid now room.pull_history = 0 := by
    intro pid
    rw [hh]
    simp [uniquePullers, recentPulls]
  simp [calculate_engagement_stats, h0, sidePullPower_zero]

/-- On an ACTIVE room whose elapsed time reached the game duration, one
game-loop iteration is the rope update followed by end_game (lines 217-226). -/
lemma game_loop_step_timeout (now t : ℚ) (room : GameRoom)
    (hA : room.status = GameStatus.active)
    (hs : room.start_time = some t)
    (hd : game_duration ≤ now - t) :
    game_loop_step now room = end_game now (update_rope_position now room) := by
  unfold game_loop_step
  rw [if_neg (by simp [hA])]
  have hs' : (update_rope_position now room).start_time = some t := by
    rw [(update_fields now room).2.2.2.1, hs]
  show (match (update_rope_position now room).start_time with
    | some t => if game_duration ≤ now - t then
        end_game now (update_rope_position now room)
      else update_rope_position now room
    | none => update_rope_position now room) =
      end_game now (update_rope_position now room)
  rw [hs']
  exact if_pos hd

/-- Claim C3 counterexample: an ACTIVE room with the rope at +50 (strictly
positive, strictly inside the 100.0 threshold) is ended by the time-limit
path, yet the winner is left unset — player1 does not win, contradicting the
claimed sign-based resolution. -/
theorem timeout_midrope_winner_unset :
    (0:ℝ) < roomT.rope_position ∧
    (game_loop_step 200 roomT).status = GameStatus.finished ∧
    (game_loop_step 200 roomT).winner_id = none := by
  have hstep := game_loop_step_timeout 200 0 roomT rfl rfl
    (by norm_num [game_duration])
  have hr : (update_rope_position 200 roomT).rope_position = 50 := by
    rw [update_rope_empty_history 200 roomT rfl rfl,
        show roomT.rope_position = (50:ℝ) from rfl,
        min_eq_right (by norm_num [win_threshold]),
        max_eq_right (by norm_num [win_threshold])]
  refine ⟨?_, ?_, ?_⟩
  · rw [show roomT.rope_position = (50:ℝ) from rfl]
    norm_num
  · rw [hstep]
    exact end_game_status _ _
  · rw [hstep, end_game_winner, hr,
        if_neg (by norm_num [win_threshold]),
        if_neg (by norm_num [win_threshold]),
        (update_fields 200 roomT).2.2.2.2]
    rfl

/-- Claim C3 (amended): when an ACTIVE room is ended because elapsed time
since start is at least the configured game duration, the winner is resolved
by threshold comparison on the freshly updated rope position — player2 wins
iff it is ≤ -win_threshold, player1 wins iff it is ≥ +win_threshold, and
strictly inside the threshold the winner is left unchanged (unset when the
game had no winner yet). -/
theorem timeout_winner_by_threshold (room : GameRoom) (now t : ℚ)
    (hA : room.status = GameStatus.active)
    (hs : room.start_time = some t)
    (hd : game_duration ≤ now - t) :
    (game_loop_step now room).winner_id =
      if (update_rope_position now room).rope_position ≤ -win_threshold then
        some room.player2.id
      else if win_threshold ≤ (update_rope_position now room).rope_position then
        some room.player1.id
      else room.winner_id := by
  rw [game_loop_step_timeout now t room hA hs hd, end_game_winner,
      (update_fields now room).2.1, (update_fields now room).2.2.1,
      (update_fields now room).2.2.2.2]

/-- Claim C3 witness: the amended statement applied to the concrete room
with the rope at +50 and 200 seconds elapsed of a 120-second game. -/
theorem timeout_winner_by_threshold_witness :
    (game_loop_step 200 roomT).winner_id =
      if (update_rope_position 200 roomT).rope_position ≤ -win_threshold then
        some roomT.player2.id
      else if win_threshold ≤ (update_rope_position 200 roomT).rope_position
        then some roomT.player1.id
      else roomT.winner_id :=
  timeout_winner_by_threshold roomT 200 0 rfl rfl (by norm_num [game_duration])

/-- register_pull never changes the rope position. -/
lemma register_pull_rope (now : ℚ) (pid u : String) (room : GameRoom) :
    (register_pull now pid u room).rope_position = room.rope_position := by
  simp only [register_pull, apply_ite GameRoom.rope_position]
  simp

/-- The clamp of lines 129-130 always lands in the closed threshold band. -/
lemma clamp_bound (x : ℝ) :
    |max (-win_threshold) (min win_threshold x)| ≤ win_threshold := by
  rw [abs_le]
  refine ⟨le_max_left _ _, max_le ?_ (min_le_left _ _)⟩
  norm_num [win_threshold]

/-- Every per-room operation keeps the rope inside the threshold band. -/
lemma applyOp_rope_bound (op : GameOp) (room : GameRoom)
    (h : |room.rope_position| ≤ win_threshold) :
    |(applyOp op room).rope_position| ≤ win_threshold := by
  cases op with
  | start now =>
    unfold applyOp start_game
    split_ifs
    · exact h
    · show |(0:ℝ)| ≤ win_threshold
      norm_num [win_threshold]
  | pull now pid u =>
    simpa [applyOp, register_pull_rope] using h
  | tick now =>
    unfold applyOp update_rope_position
    split_ifs
    · exact h
    · simpa [calculate_engagement_stats] using clamp_bound _
  | finish now =>
    simpa [applyOp, end_game_rope] using h
  | disconnect now sid =>
    simpa [applyOp, handle_player_disconnect, end_game_rope,
      markForfeit_rope] using h

/-- The rope bound is preserved along any operation sequence. -/
lemma runOps_rope_bound (ops : List GameOp) (room : GameRoom)
    (h : |room.rope_position| ≤ win_threshold) :
    |(runOps ops room).rope_position| ≤ win_threshold := by
  induction ops generalizing room with
  | nil => exact h
  | cons op ops ih => exact ih _ (applyOp_rope_bound op room h)

/-- Claim C4: starting from start_game on a WAITING room (which zeroes the
rope) and running any interleaving of the per-room operations, every
update_rope_position call leaves the rope position within
[-win_threshold, +win_threshold], whatever pull powers the pull history
produces. -/
theorem rope_position_bounded (room : GameRoom) (now0 : ℚ)
    (ops : List GameOp) (now : ℚ)
    (hW : room.status = GameStatus.waiting) :
    |(update_rope_position now
        (runOps ops (start_game now0 room))).rope_position| ≤ win_threshold := by
  have h0 : |(start_game now0 room).rope_position| ≤ win_threshold := by
    unfold start_game
    rw [if_neg (by simp [hW])]
    show |(0:ℝ)| ≤ win_threshold
    norm_num [win_threshold]
  exact applyOp_rope_bound (GameOp.tick now) _ (runOps_rope_bound ops _ h0)

/-- Claim C4 witness: the bound at a concrete WAITING room, the empty
operation sequence and a concrete tick time. -/
theorem rope_position_bounded_witness :
    |(update_rope_position 1
        (runOps [] (start_game 0 roomW))).rope_position| ≤ win_threshold :=
  rope_position_bounded roomW 0 [] 1 rfl

/-- Rational bounds on the natural logarithm of 10, obtained from the nine
decimal-digit bounds on log 2 together with 1000 = 1024 / 1.024. -/
lemma log_ten_bounds :
    (2.3024906 : ℝ) ≤ Real.log 10 ∧ Real.log 10 ≤ 2.3026782 := by
  have h1024 : Real.log 1024 = 10 * Real.log 2 := by
    rw [show (1024:ℝ) = 2 ^ (10:ℕ) by norm_num, Real.log_pow]
    push_cast
    ring
  have h1000 : Real.log 1000 = 3 * Real.log 10 := by
    rw [show (1000:ℝ) = 10 ^ (3:ℕ) by norm_num, Real.log_pow]
    push_cast
    ring
  have hdiv : Real.log 1024 - Real.log 1000 = Real.log ((1024:ℝ) / 1000) := by
    rw [Real.log_div (by norm_num) (by norm_num)]
  have hub : Real.log ((1024:ℝ) / 1000) ≤ 24 / 1000 := by
    have h := Real.log_le_sub_one_of_pos (x := (1024:ℝ)/1000) (by norm_num)
    linarith
  have hlb : (24:ℝ) / 1024 ≤ Real.log ((1024:ℝ) / 1000) := by
    have h := Real.log_le_sub_one_of_pos (x := (1000:ℝ)/1024) (by norm_num)
    have hinv : Real.log ((1000:ℝ)/1024) = -Real.log ((1024:ℝ)/1000) := by
      rw [show ((1000:ℝ)/1024) = ((1024:ℝ)/1000)⁻¹ by norm_num, Real.log_inv]
    rw [hinv] at h
    linarith
  have hg := Real.log_two_gt_d9
  have hl := Real.log_two_lt_d9
  constructor <;> linarith

/-- Rational bounds on log10(4). -/
lemma logb_ten_four_bounds :
    (0.60203 : ℝ) ≤ Real.logb 10 4 ∧ Real.logb 10 4 ≤ 0.60209 := by
  obtain ⟨hl, hu⟩ := log_ten_bounds
  have h4 : Real.log 4 = 2 * Real.log 2 := by
    rw [show (4:ℝ) = 2 ^ (2:ℕ) by norm_num, Real.log_pow]
    push_cast
    ring
  have hg := Real.log_two_gt_d9
  have hlt := Real.log_two_lt_d9
  have hpos : (0:ℝ) < Real.log 10 := Real.log_pos (by norm_num)
  unfold Real.logb
  rw [h4]
  constructor
  · rw [le_div_iff₀ hpos]
    nlinarith
  · rw [div_le_iff₀ hpos]
    nlinarith

/-- Claim C5: per side, uniquePullers counts the distinct usernames among the
pull events of the last 30 seconds belonging to that side, engagementRate is
uniquePullers over max(viewer count, 1), and in the concrete scenario of a
10-viewer side with base strength 1.0 and three distinct in-window
contributors the rate is 0.3 and the pull power is
0.3 * 1.0 * log10(4) = 0.1806 up to 1e-4. -/
theorem engagement_stats_values :
    (∀ (pid : String) (now : ℚ) (hist : List PullData),
      uniquePullers pid now hist =
        (((recentPulls now hist).filter fun p => p.player_id = pid).map
            PullData.username).toFinset.card) ∧
    (∀ (now : ℚ) (room : GameRoom),
      (calculate_engagement_stats now room).player1_stats.engagement_rate =
        (uniquePullers room.player1.id now room.pull_history : ℝ) /
          (max room.player1.viewer_count 1 : ℕ)) ∧
    (calculate_engagement_stats 10 room5).player1_stats.unique_pullers = 3 ∧
    (calculate_engagement_stats 10 room5).player1_stats.engagement_rate
      = 3 / 10 ∧
    |(calculate_engagement_stats 10 room5).player1_stats.pull_power - 0.1806|
      ≤ 1 / 10000 := by
  have hu : uniquePullers "p1" 10 room5.pull_history = 3 := by
    show uniquePullers "p1" 10
      [{ timestamp := 0, username := "u1", player_id := "p1" },
       { timestamp := 0, username := "u2", player_id := "p1" },
       { timestamp := 0, username := "u3", player_id := "p1" }] = 3
    norm_num [uniquePullers, recentPulls]
    decide
  have hpp : (calculate_engagement_stats 10 room5).player1_stats.pull_power =
      sidePullPower 10 3 base_pull_strength := by
    show sidePullPower room5.player1.viewer_count
        (uniquePullers room5.player1.id 10 room5.pull_history)
        base_pull_strength = sidePullPower 10 3 base_pull_strength
    rw [show room5.player1.id = "p1" from rfl, hu,
        show room5.player1.viewer_count = 10 from rfl]
  refine ⟨?_, ?_, ?_, ?_, ?_⟩
  · intro pid now hist
    rw [uniquePullers, List.card_toFinset]
  · intro now room
    simp [calculate_engagement_stats, engagementRate]
  · show uniquePullers room5.player1.id 10 room5.pull_history = 3
    rw [show room5.player1.id = "p1" from rfl, hu]
  · show engagementRate
      (uniquePullers room5.player1.id 10 room5.pull_history)
      room5.player1.viewer_count = 3 / 10
    rw [show room5.player1.id = "p1" from rfl, hu]
    show ((3:ℕ):ℝ) / ((max 10 1 : ℕ):ℝ) = 3 / 10
    norm_num
  · have h2 : sidePullPower 10 3 base_pull_strength =
        3 / 10 * Real.logb 10 4 := by
      simp only [sidePullPower, engagementRate, base_pull_strength]
      norm_num
    rw [hpp, h2, abs_le]
    obtain ⟨hb1, hb2⟩ := logb_ten_four_bounds
    constructor <;> linarith

/-- Claim C6: the pull-power formula is exactly zero at zero unique pullers
for every viewer count and base strength, and for a fixed positive viewer
count and positive base strength it is strictly increasing in the number of
unique pullers. -/
theorem pull_power_zero_and_strict_mono (viewers : ℕ) (base : ℝ)
    (hv : 0 < viewers) (hb : 0 < base) :
    (∀ (w : ℕ) (b : ℝ), sidePullPower w 0 b = 0) ∧
    (∀ n m : ℕ, n < m →
      sidePullPower viewers n base < sidePullPower viewers m base) := by
  refine ⟨fun w b => sidePullPower_zero w b, fun n m hnm => ?_⟩
  have hV : (0:ℝ) < ((max viewers 1 : ℕ) : ℝ) := by
    exact_mod_cast Nat.lt_of_lt_of_le Nat.zero_lt_one (le_max_right viewers 1)
  have hm : 0 < m := Nat.lt_of_le_of_lt (Nat.zero_le n) hnm
  have hmR : (0:ℝ) < (m:ℝ) := by exact_mod_cast hm
  have hLn : (0:ℝ) ≤ Real.logb 10 ((n:ℝ) + 1) :=
    Real.logb_nonneg (by norm_num) (by linarith [Nat.cast_nonneg (α := ℝ) n])
  have hLm : (0:ℝ) < Real.logb 10 ((m:ℝ) + 1) :=
    Real.logb_pos (by norm_num) (by linarith)
  have hLmono : Real.logb 10 ((n:ℝ) + 1) ≤ Real.logb 10 ((m:ℝ) + 1) := by
    apply Real.logb_le_logb_of_le (by norm_num)
    · positivity
    · have : (n:ℝ) ≤ (m:ℝ) := by exact_mod_cast Nat.le_of_lt hnm
      linarith
  have h1 : (n:ℝ) * Real.logb 10 ((n:ℝ) + 1) ≤
      (n:ℝ) * Real.logb 10 ((m:ℝ) + 1) :=
    mul_le_mul_of_nonneg_left hLmono (Nat.cast_nonneg n)
  have h2 : (n:ℝ) * Real.logb 10 ((m:ℝ) + 1) <
      (m:ℝ) * Real.logb 10 ((m:ℝ) + 1) :=
    mul_lt_mul_of_pos_right (by exact_mod_cast hnm) hLm
  simp only [sidePullPower, engagementRate]
  rw [div_mul_eq_mul_div, div_mul_eq_mul_div, div_mul_eq_mul_div,
      div_mul_eq_mul_div, div_lt_div_iff₀ hV hV]
  nlinarith [mul_pos hb hV]

/-- Claim C6 witness: the theorem at viewer count 10 and base strength 1,
specialised to zero power at zero pullers and to the strict increase from one
to two pullers. -/
theorem pull_power_zero_and_strict_mono_witness :
    sidePullPower 7 0 5 = 0 ∧ sidePullPower 10 1 1 < sidePullPower 10 2 1 :=
  ⟨(pull_power_zero_and_strict_mono 10 1 (by norm_num) (by norm_num)).1 7 5,
   (pull_power_zero_and_strict_mono 10 1 (by norm_num) (by norm_num)).2 1 2
     (by norm_num)⟩

/-- Claim C7: find_match is strict FIFO — with at least two entries it
removes and returns the two earliest-enqueued entries in arrival order and
leaves the rest of the queue unchanged in order; with fewer than two entries
it returns none. -/
theorem find_match_fifo (q : List QueuePlayer) :
    (∀ a b rest, q = a :: b :: rest →
      find_match q = some ((a.player, b.player), rest)) ∧
    (q.length < 2 → find_match q = none) := by
  constructor
  · rintro a b rest rfl
    rfl
  · intro h
    cases q with
    | nil => rfl
    | cons a t =>
      cases t with
      | nil => rfl
      | cons b r =>
        exfalso
        simp only [List.length_cons] at h
        omega

/-- A third concrete player for queue scenarios. -/
def cara : Player :=
  { id := "p3", username := "Cara", channel_name := "caratv",
    viewer_count := 5, session_id := "s3" }

/-- Queue entry for alice enqueued at time 0. -/
def qA : QueuePlayer := { player := alice, joined_at := 0, session_id := "s1" }

/-- Queue entry for bob enqueued at time 1. -/
def qB : QueuePlayer := { player := bob, joined_at := 1, session_id := "s2" }

/-- Queue entry for cara enqueued at time 2. -/
def qC : QueuePlayer := { player := cara, joined_at := 2, session_id := "s3" }

/-- Claim C7 witness: enqueue A, then B, then C; the first match returns
(A, B) and leaves C queued, and a match attempt with only C queued returns
none. -/
theorem find_match_fifo_witness :
    find_match
        (add_player 2 cara (add_player 1 bob (add_player 0 alice []))) =
      some ((alice, bob), [qC]) ∧
    find_match [qC] = none := by
  have hq : add_player 2 cara (add_player 1 bob (add_player 0 alice [])) =
      [qA, qB, qC] := by decide
  constructor
  · rw [hq]
    exact (find_match_fifo [qA, qB, qC]).1 qA qB [qC] rfl
  · exact (find_match_fifo [qC]).2 (by decide)

/-- Claim C9: on an ACTIVE room, register_pull with a player_id equal to
neither player's id still appends the event to the pull history and
increments player2's total_pulls, leaving player1's stats untouched — no
side value is rejected. -/
theorem register_pull_unknown_player_id (room : GameRoom) (now : ℚ)
    (pid uname : String)
    (hA : room.status = GameStatus.active)
    (h1 : pid ≠ room.player1.id) (h2 : pid ≠ room.player2.id) :
    (register_pull now pid uname room).pull_history =
      room.pull_history ++
        [{ timestamp := now, username := uname, player_id := pid }] ∧
    (register_pull now pid uname room).player2_stats.total_pulls =
      room.player2_stats.total_pulls + 1 ∧
    (register_pull now pid uname room).player1_stats = room.player1_stats := by
  simp [register_pull, hA, h1]

/-- Claim C9 witness: a pull attributed to the unknown id "stranger" in the
concrete ACTIVE room is appended and counted for player2. -/
theorem register_pull_unknown_player_id_witness :
    (register_pull 1 "stranger" "eve" roomA).pull_history =
      roomA.pull_history ++
        [{ timestamp := 1, username := "eve", player_id := "stranger" }] ∧
    (register_pull 1 "stranger" "eve" roomA).player2_stats.total_pulls =
      roomA.player2_stats.total_pulls + 1 ∧
    (register_pull 1 "stranger" "eve" roomA).player1_stats =
      roomA.player1_stats :=
  register_pull_unknown_player_id roomA 1 "stranger" "eve" rfl
    (by decide) (by decide)

/-- The room index after cleanup_room, pointwise. -/
lemma cleanup_rooms_eq (rid : String) (gm : GameManager) (k : String) :
    (cleanup_room rid gm).rooms k = if k = rid then none else gm.rooms k := rfl

/-- The session index after cleanup_room when the room was present. -/
lemma cleanup_sessions_some (rid : String) (gm : GameManager)
    (room : GameRoom) (h : gm.rooms rid = some room) (s : String) :
    (cleanup_room rid gm).session_to_room s =
      if s = room.player1.session_id ∨ s = room.player2.session_id then none
      else gm.session_to_room s := by
  unfold cleanup_room
  simp only [h]

/-- The session index after cleanup_room when the room was absent. -/
lemma cleanup_sessions_none (rid : String) (gm : GameManager)
    (h : gm.rooms rid = none) (s : String) :
    (cleanup_room rid gm).session_to_room s = gm.session_to_room s := by
  unfold cleanup_room
  simp only [h]

/-- The empty manager satisfies the session invariant. -/
lemma sessionInv_empty : SessionInv emptyManager :=
  fun _ _ hs => Option.noConfusion hs

/-- create_room preserves the session invariant whenever the generated room
id is fresh (uuid4 collisions are assumed away, as in the source). -/
lemma sessionInv_create (gm : GameManager) (rid : String) (p1 p2 : Player)
    (hfresh : gm.rooms rid = none) (hInv : SessionInv gm) :
    SessionInv (create_room rid p1 p2 gm) := by
  intro s r hs
  unfold create_room at hs
  simp only at hs
  by_cases hcase : s = p1.session_id ∨ s = p2.session_id
  · rw [if_pos hcase] at hs
    cases hs
    refine ⟨mkRoom rid p1 p2, ?_, ?_⟩
    · unfold create_room
      simp
    · simpa [mkRoom] using hcase
  · rw [if_neg hcase] at hs
    obtain ⟨room, hroom, hside⟩ := hInv s r hs
    have hne : r ≠ rid := by
      rintro rfl
      rw [hfresh] at hroom
      exact Option.noConfusion hroom
    refine ⟨room, ?_, hside⟩
    unfold create_room
    simp [hne, hroom]

/-- cleanup_room preserves the session invariant. -/
lemma sessionInv_cleanup (gm : GameManager) (rid : String)
    (hInv : SessionInv gm) : SessionInv (cleanup_room rid gm) := by
  intro s r hs
  cases hrooms : gm.rooms rid with
  | some room =>
    rw [cleanup_sessions_some rid gm room hrooms] at hs
    by_cases hdel : s = room.player1.session_id ∨ s = room.player2.session_id
    · rw [if_pos hdel] at hs
      exact Option.noConfusion hs
    · rw [if_neg hdel] at hs
      obtain ⟨room', hroom', hside⟩ := hInv s r hs
      have hne : r ≠ rid := by
        rintro rfl
        rw [hrooms] at hroom'
        cases hroom'
        exact hdel hside
      exact ⟨room', by rw [cleanup_rooms_eq, if_neg hne]; exact hroom', hside⟩
  | none =>
    rw [cleanup_sessions_none rid gm hrooms] at hs
    obtain ⟨room', hroom', hside⟩ := hInv s r hs
    have hne : r ≠ rid := by
      rintro rfl
      rw [hrooms] at hroom'
      exact Option.noConfusion hroom'
    exact ⟨room', by rw [cleanup_rooms_eq, if_neg hne]; exact hroom', hside⟩

/-- Claim C8: for every registry state satisfying the (reachable-state)
session invariant, cleanup_room removes the room id from the rooms index and
leaves no session entry mapping to the removed room, and a second
cleanup_room call with the same id leaves both indexes pointwise
unchanged (and cannot error: the operation is total). -/
theorem cleanup_room_clears_indexes (gm : GameManager) (rid : String)
    (hInv : SessionInv gm) :
    (cleanup_room rid gm).rooms rid = none ∧
    (∀ s, (cleanup_room rid gm).session_to_room s ≠ some rid) ∧
    (∀ k, (cleanup_room rid (cleanup_room rid gm)).rooms k =
      (cleanup_room rid gm).rooms k) ∧
    (∀ s, (cleanup_room rid (cleanup_room rid gm)).session_to_room s =
      (cleanup_room rid gm).session_to_room s) := by
  have hgone : (cleanup_room rid gm).rooms rid = none := by
    rw [cleanup_rooms_eq, if_pos rfl]
  refine ⟨hgone, ?_, ?_, ?_⟩
  · intro s hs
    cases hrooms : gm.rooms rid with
    | some room =>
      rw [cleanup_sessions_some rid gm room hrooms] at hs
      by_cases hdel : s = room.player1.session_id ∨
          s = room.player2.session_id
      · rw [if_pos hdel] at hs
        exact Option.noConfusion hs
      · rw [if_neg hdel] at hs
        obtain ⟨room', hroom', hside⟩ := hInv s rid hs
        rw [hrooms] at hroom'
        cases hroom'
        exact hdel hside
    | none =>
      rw [cleanup_sessions_none rid gm hrooms] at hs
      obtain ⟨room', hroom', _⟩ := hInv s rid hs
      rw [hrooms] at hroom'
      exact Option.noConfusion hroom'
  · intro k
    rw [cleanup_rooms_eq rid (cleanup_room rid gm), cleanup_rooms_eq]
    by_cases hk : k = rid
    · rw [if_pos hk, if_pos hk]
    · rw [if_neg hk, if_neg hk]
  · intro s
    exact cleanup_sessions_none rid (cleanup_room rid gm) hgone s

/-- Claim C8 witness: the registry holding exactly the freshly created room
"X" for alice and bob satisfies the invariant, and the theorem applies to
it. -/
theorem cleanup_room_clears_indexes_witness :
    (cleanup_room "X" (create_room "X" alice bob emptyManager)).rooms "X"
      = none ∧
    ∀ s, (cleanup_room "X"
      (create_room "X" alice bob emptyManager)).session_to_room s
        ≠ some "X" := by
  have h := cleanup_room_clears_indexes
    (create_room "X" alice bob emptyManager) "X"
    (sessionInv_create emptyManager "X" alice bob rfl sessionInv_empty)
  exact ⟨h.1, h.2.1⟩

/-- Claim C10: cleanup_room deletes the session entries keyed by the removed
room's two player session handles unconditionally — whatever room id those
entries currently map to — and leaves every other session entry and every
other room entry unchanged. -/
theorem cleanup_room_deletes_by_session_key (gm : GameManager) (rid : String)
    (room : GameRoom) (h : gm.rooms rid = some room) :
    (cleanup_room rid gm).session_to_room room.player1.session_id = none ∧
    (cleanup_room rid gm).session_to_room room.player2.session_id = none ∧
    (∀ s, s ≠ room.player1.session_id → s ≠ room.player2.session_id →
      (cleanup_room rid gm).session_to_room s = gm.session_to_room s) ∧
    (∀ k, k ≠ rid → (cleanup_room rid gm).rooms k = gm.rooms k) := by
  refine ⟨?_, ?_, ?_, ?_⟩
  · rw [cleanup_sessions_some rid gm room h, if_pos (Or.inl rfl)]
  · rw [cleanup_sessions_some rid gm room h, if_pos (Or.inr rfl)]
  · intro s h1 h2
    rw [cleanup_sessions_some rid gm room h, if_neg (by tauto)]
  · intro k hk
    rw [cleanup_rooms_eq, if_neg hk]

/-- A registry in which room "X" is indexed but alice's session handle has
since been re-pointed at a different room "Y". -/
noncomputable def gmStale : GameManager :=
  { rooms := fun k => if k = "X" then some roomA else none
    session_to_room := fun s =>
      if s = "s1" then some "Y" else if s = "s2" then some "X" else none }

/-- Claim C10 witness: cleaning up room "X" in the stale registry deletes
alice's session entry even though it currently maps to the different room
"Y". -/
theorem cleanup_room_deletes_by_session_key_witness :
    gmStale.session_to_room "s1" = some "Y" ∧
    (cleanup_room "X" gmStale).session_to_room "s1" = none ∧
    (cleanup_room "X" gmStale).session_to_room "s2" = none := by
  have h := cleanup_room_deletes_by_session_key gmStale "X" roomA
    (by simp [gmStale])
  refine ⟨by simp [gmStale], ?_, ?_⟩
  · have h1 := h.1
    rwa [show roomA.player1.session_id = "s1" from rfl] at h1
  · have h2 := h.2.1
    rwa [show roomA.player2.session_id = "s2" from rfl] at h2

end TugOChat
